import Mathlib

/-!
Verification of the `extract-readability` command-line tool.

The tool (two revisions: `src/extract_readability.js` and
`src/unnamed/part_000`) fetches a web page through a headless browser,
strips a fixed set of boilerplate DOM tags, runs the Mozilla Readability
heuristic, and emits a JSON record `{title, content, domain, url}`;
optionally it writes three debug files.

The external libraries (puppeteer, JSDOM, Readability, Node's `fs` and
`URL`) are modelled abstractly through an `Env` record of oracle
functions; the repository's own control flow is embedded faithfully as
pure Lean functions that also return an explicit trace of side-effect
events (browser launch/close, mkdir, file writes).
-/

namespace ExtractReadability

/-- A DOM node: an element with a (lower-cased) tag name and child nodes,
or a text node.  A parsed document is a list of top-level nodes. -/
inductive Dom where
  | elem (tag : String) (children : List Dom)
  | text (s : String)
deriving Repr

/-- The article object returned by `Readability#parse` when it succeeds. -/
structure Article where
  title : String
  textContent : String
deriving Repr, DecidableEq

/-- The output record built by `extract` (both revisions):
`{ title, content, domain, url }` — exactly these four fields. -/
structure ResultRecord where
  title : String
  content : String
  domain : String
  url : String
deriving Repr, DecidableEq

/-- Errors a run can throw. -/
inductive Err where
  | launchErr (msg : String)
  | nav (msg : String)
  | noArticle
  | fsMkdir (dir : String)
  | fsWrite (file : String)
deriving Repr, DecidableEq

/-- Side-effect events recorded in order of occurrence. -/
inductive Event where
  | launch
  | close
  | mkdir (dir : String)
  | write (file : String) (content : String)
deriving Repr, DecidableEq

/-- Oracle behaviour of the external libraries and of the filesystem for
one run.  `navigate` bundles `page.goto` + `page.content()`: it either
yields the rendered HTML or fails with a navigation/timeout error.
`parseHtml` is JSDOM parsing (total), `readability` is
`new Readability(doc).parse()` (`none` = parse returned null),
`hostname` is `new URL(url).hostname`, and the three filesystem fields
say whether the debug directory exists, whether `mkdirSync` succeeds,
and whether `writeFileSync` on a given path succeeds. -/
structure Env where
  launch : Except String Unit
  navigate : String → Except String String
  parseHtml : String → String → List Dom
  readability : List Dom → Option Article
  hostname : String → String
  dirExists : String → Bool
  mkdirOk : String → Bool
  writeOk : String → Bool

/-- `CONFIG.REMOVE_SELECTORS`, the fixed selector list
`'script, style, noscript, iframe, svg, form, footer, nav, aside'`. -/
def removeSelectors : List String :=
  ["script", "style", "noscript", "iframe", "svg", "form", "footer", "nav", "aside"]

/-- `CONFIG.BLOCK_RESOURCES`, the fixed list of blocked resource types. -/
def blockResources : List String :=
  ["image", "stylesheet", "font", "media", "imageset", "object", "beacon", "csp_report"]

mutual

/-- Effect on one node of
`doc.querySelectorAll(REMOVE_SELECTORS).forEach(el => el.remove())`:
an element whose tag matches the selector list is removed (together with
its subtree, as `Element#remove` detaches the whole subtree); any other
node survives with its children sanitized. -/
def sanitize : Dom → Option Dom
  | .text s => some (.text s)
  | .elem tag cs =>
      if tag ∈ removeSelectors then none
      else some (.elem tag (sanitizeList cs))

/-- `sanitize` mapped over a list of sibling nodes. -/
def sanitizeList : List Dom → List Dom
  | [] => []
  | d :: ds =>
      match sanitize d with
      | none => sanitizeList ds
      | some d2 => d2 :: sanitizeList ds

end

/-- `createCleanDom(rawHtml, url)` (identical in both revisions): parse
the HTML with JSDOM, then delete every element matching the fixed
selector list. -/
def createCleanDom (env : Env) (rawHtml url : String) : List Dom :=
  sanitizeList (env.parseHtml rawHtml url)

mutual

/-- Whether an element with tag `t` occurs anywhere in the node. -/
def occursTag (t : String) : Dom → Bool
  | .text _ => false
  | .elem tag cs => tag = t || occursTagList t cs

/-- Whether an element with tag `t` occurs anywhere in the node list. -/
def occursTagList (t : String) : List Dom → Bool
  | [] => false
  | d :: ds => occursTag t d || occursTagList t ds

end

/-- The request-interception decision: `req.abort()` or `req.continue()`. -/
inductive ReqDecision where
  | abort
  | cont
deriving Repr, DecidableEq

/-- The `page.on('request', ...)` handler (identical in both revisions):
abort when the request's resource type is in `BLOCK_RESOURCES`,
otherwise continue.  It reads nothing but the one request's type. -/
def handleRequest (resourceType : String) : ReqDecision :=
  if resourceType ∈ blockResources then .abort else .cont

/-- All interception decisions for a sequence of requests, each given by
its resource type. -/
def handleRequests (resourceTypes : List String) : List ReqDecision :=
  resourceTypes.map handleRequest

/-- JavaScript whitespace as used by `String.prototype.trim`:
tab, LF, VT, FF, CR, space, NBSP, and the Unicode space separators,
line/paragraph separators and BOM (code points listed in decimal). -/
def jsWhitespace (c : Char) : Bool :=
  c.toNat ∈ [9, 10, 11, 12, 13, 32, 160, 5760, 8192, 8193, 8194, 8195, 8196,
             8197, 8198, 8199, 8200, 8201, 8202, 8232, 8233, 8239, 8287, 12288, 65279]

/-- `trim` on a character list: drop whitespace from both ends. -/
def jsTrimList (l : List Char) : List Char :=
  ((l.dropWhile jsWhitespace).reverse.dropWhile jsWhitespace).reverse

/-- `String.prototype.trim`. -/
def jsTrim (s : String) : String :=
  ⟨jsTrimList s.data⟩

/-- `path.join(dir, name)`. -/
def pathJoin (dir name : String) : String :=
  dir ++ "/" ++ name

/-- `String.prototype.startsWith`: whether `pre` is a prefix of `s`. -/
def jsStartsWith (s pre : String) : Bool :=
  pre.data.isPrefixOf s.data

/-- The Readability/result-shaping step shared verbatim by both
revisions (`createCleanDom`; `new Readability(dom.window.document)`;
`reader.parse()`; `if (!article) throw`; build the record with
`article.title`, `article.textContent.trim()`, `new URL(url).hostname`,
and the input `url`). -/
def extractStep (env : Env) (url rawHtml : String) : Except Err ResultRecord :=
  match env.readability (createCleanDom env rawHtml url) with
  | none => .error .noArticle
  | some a =>
      .ok { title := a.title
            content := jsTrim a.textContent
            domain := env.hostname url
            url := url }

/-- The three debug artifacts, in the order both revisions write them. -/
def artifactList (rawHtml : String) (result : ResultRecord) : List (String × String) :=
  [("original.html", rawHtml), ("title.txt", result.title), ("content.txt", result.content)]

/-- Sequential `fs.writeFileSync` calls: write each artifact into `dir`
in order, stopping (throwing) at the first failing write.  Returns the
outcome together with the write events that actually happened. -/
def writeArtifacts (env : Env) (dir : String) :
    List (String × String) → Except Err Unit × List Event
  | [] => (.ok (), [])
  | (name, content) :: rest =>
      let p := pathJoin dir name
      if env.writeOk p then
        let (r, evs) := writeArtifacts env dir rest
        (r, .write p content :: evs)
      else
        (.error (.fsWrite p), [])

namespace Rev1

/-- `fetchHtmlWithBrowser(url)` of `src/extract_readability.js`:
launch the browser (a launch failure throws before any browser
exists), then inside `try { ... } finally { await browser.close() }`
navigate and return the rendered HTML.  The trace records the
launch/close events. -/
def fetchHtmlWithBrowser (env : Env) (url : String) : Except Err String × List Event :=
  match env.launch with
  | .error m => (.error (.launchErr m), [])
  | .ok _ =>
      match env.navigate url with
      | .error m => (.error (.nav m), [.launch, .close])
      | .ok html => (.ok html, [.launch, .close])

/-- `saveDebugFiles(debugDir, rawHtml, result)` of
`src/extract_readability.js`: create the directory when absent
(`existsSync` / `mkdirSync`), then write the three artifacts in order. -/
def saveDebugFiles (env : Env) (debugDir rawHtml : String) (result : ResultRecord) :
    Except Err Unit × List Event :=
  if env.dirExists debugDir then
    writeArtifacts env debugDir (artifactList rawHtml result)
  else if env.mkdirOk debugDir then
    let (r, evs) := writeArtifacts env debugDir (artifactList rawHtml result)
    (r, .mkdir debugDir :: evs)
  else
    (.error (.fsMkdir debugDir), [])

/-- `extract(url, debugDir)` of `src/extract_readability.js`:
fetch with the browser, run Readability on the cleaned DOM, shape the
result, then save debug files when a debug directory was given.
(The `try { ... } catch (error) { throw error; }` wrapper rethrows
unchanged.) -/
def extract (env : Env) (url : String) (debugDir : Option String) :
    Except Err ResultRecord × List Event :=
  match fetchHtmlWithBrowser env url with
  | (.error e, tr) => (.error e, tr)
  | (.ok rawHtml, tr) =>
      match extractStep env url rawHtml with
      | .error e => (.error e, tr)
      | .ok result =>
          match debugDir with
          | none => (.ok result, tr)
          | some d =>
              match saveDebugFiles env d rawHtml result with
              | (.ok _, evs) => (.ok result, tr ++ evs)
              | (.error e, evs) => (.error e, tr ++ evs)

end Rev1

namespace Part000

/-- `extract(url, debugDir)` of `src/unnamed/part_000`: first prepare
the debug directory (mkdir before the browser is even launched), then
launch (`let browser` + `finally { if (browser) await browser.close() }`,
so a launch failure closes nothing), navigate, run Readability on the
cleaned DOM, shape the result, write the three debug files inside the
`try`, and close the browser in the `finally`. -/
def extract (env : Env) (url : String) (debugDir : Option String) :
    Except Err ResultRecord × List Event :=
  let mkPhase : Except Err (List Event) :=
    match debugDir with
    | none => .ok []
    | some d =>
        if env.dirExists d then .ok []
        else if env.mkdirOk d then .ok [.mkdir d]
        else .error (.fsMkdir d)
  match mkPhase with
  | .error e => (.error e, [])
  | .ok mkEvs =>
      match env.launch with
      | .error m => (.error (.launchErr m), mkEvs)
      | .ok _ =>
          match env.navigate url with
          | .error m => (.error (.nav m), mkEvs ++ [.launch, .close])
          | .ok rawHtml =>
              match extractStep env url rawHtml with
              | .error e => (.error e, mkEvs ++ [.launch, .close])
              | .ok result =>
                  match debugDir with
                  | none => (.ok result, mkEvs ++ [.launch, .close])
                  | some d =>
                      match writeArtifacts env d (artifactList rawHtml result) with
                      | (.ok _, evs) =>
                          (.ok result, mkEvs ++ [.launch] ++ evs ++ [.close])
                      | (.error e, evs) =>
                          (.error e, mkEvs ++ [.launch] ++ evs ++ [.close])

end Part000

/-- Argument parsing (`parseArgs` in `src/extract_readability.js`;
inlined with identical logic in `src/unnamed/part_000`'s main block):
the target URL is the first argument not starting with `-`
(`args.find(arg => !arg.startsWith('-'))`); the debug directory is the
argument after the first `--debug-dir`/`-d` occurrence, provided it
exists and is truthy (`if (debugIndex !== -1 && args[debugIndex + 1])`
— the empty string is falsy and leaves `debugDir` null). -/
def parseArgs (args : List String) : Option String × Option String :=
  let targetUrl := args.find? (fun a => ! jsStartsWith a "-")
  let debugDir :=
    match args.findIdx? (fun a => a = "--debug-dir" || a = "-d") with
    | none => none
    | some i =>
        match args.get? (i + 1) with
        | none => none
        | some v => if v = "" then none else some v
  (targetUrl, debugDir)

/-- What the process does, as far as the claims observe it: exit code,
the JSON record printed on standard output (if any), and the error
diagnostic printed on standard error (if any; the code prints
`'Failed: ' + err.message`). -/
structure MainOut where
  exitCode : Nat
  stdoutJson : Option ResultRecord
  stderrErr : Option Err
deriving Repr

/-- The entry point of `src/extract_readability.js`: parse arguments,
then `if (!targetUrl)` — which fires both when no non-flag argument
exists (`undefined`) and when the selected target URL is the empty
string (falsy) — print the usage message and exit 1; otherwise run
`extract`; on success print the JSON record on standard output
(exit 0), on failure print the error on standard error and exit 1. -/
def mainRev1 (env : Env) (argv : List String) : MainOut :=
  match parseArgs argv with
  | (none, _) => { exitCode := 1, stdoutJson := none, stderrErr := none }
  | (some url, debugDir) =>
      if url = "" then { exitCode := 1, stdoutJson := none, stderrErr := none }
      else
        match Rev1.extract env url debugDir with
        | (.ok r, _) => { exitCode := 0, stdoutJson := some r, stderrErr := none }
        | (.error e, _) => { exitCode := 1, stdoutJson := none, stderrErr := some e }

/-- The entry point of `src/unnamed/part_000` (same parsing logic and
the same falsy `if (!targetUrl)` usage check, inlined; calls its own
`extract`). -/
def mainPart (env : Env) (argv : List String) : MainOut :=
  match parseArgs argv with
  | (none, _) => { exitCode := 1, stdoutJson := none, stderrErr := none }
  | (some url, debugDir) =>
      if url = "" then { exitCode := 1, stdoutJson := none, stderrErr := none }
      else
        match Part000.extract env url debugDir with
        | (.ok r, _) => { exitCode := 0, stdoutJson := some r, stderrErr := none }
        | (.error e, _) => { exitCode := 1, stdoutJson := none, stderrErr := some e }

/-- The write events of a trace, in order. -/
def writesOf : List Event → List (String × String)
  | [] => []
  | .write p c :: rest => (p, c) :: writesOf rest
  | .launch :: rest => writesOf rest
  | .close :: rest => writesOf rest
  | .mkdir _ :: rest => writesOf rest

/-- Replay the write events of a trace over a filesystem (a map from
path to contents): each write overwrites whatever was there. -/
def applyEvents (fs : String → Option String) : List Event → (String → Option String)
  | [] => fs
  | .write p c :: rest => applyEvents (fun q => if q = p then some c else fs q) rest
  | .launch :: rest => applyEvents fs rest
  | .close :: rest => applyEvents fs rest
  | .mkdir _ :: rest => applyEvents fs rest

/-- A demonstration environment used to instantiate the theorems on a
concrete run: a page whose parsed DOM contains a `script` element, and
a readability oracle that succeeds exactly when the document it is
given contains no `script` element. -/
def envDemo : Env :=
  { launch := .ok ()
    navigate := fun _ => .ok "<html><body><p>hello</p><script>x</script></body></html>"
    parseHtml := fun _ _ =>
      [Dom.elem "html"
        [Dom.elem "body" [Dom.elem "p" [Dom.text "hello"], Dom.elem "script" [Dom.text "x"]]]]
    readability := fun doc =>
      if occursTagList "script" doc then none
      else some { title := "T", textContent := " hello " }
    hostname := fun _ => "example.com"
    dirExists := fun _ => false
    mkdirOk := fun _ => true
    writeOk := fun _ => true }

/-- `envDemo` with a readability oracle that never finds an article. -/
def envFail : Env :=
  { envDemo with readability := fun _ => none }

/-- `envDemo` with a readability oracle returning an article whose title
is empty and whose text is a single space. -/
def envEmptyArticle : Env :=
  { envDemo with
    dirExists := fun _ => true
    readability := fun _ => some { title := "", textContent := " " } }

theorem writesOf_append (a b : List Event) :
    writesOf (a ++ b) = writesOf a ++ writesOf b := by
  induction a with
  | nil => rfl
  | cons e rest ih => cases e <;> simp [writesOf, ih]

mutual

theorem occursTag_sanitize {t : String} (ht : t ∈ removeSelectors) :
    ∀ {d d2 : Dom}, sanitize d = some d2 → occursTag t d2 = false
  | .text s, d2, h => by
      simp only [sanitize, Option.some.injEq] at h
      subst h
      simp [occursTag]
  | .elem tag cs, d2, h => by
      by_cases htag : tag ∈ removeSelectors
      · simp [sanitize, htag] at h
      · simp only [sanitize, if_neg htag, Option.some.injEq] at h
        subst h
        simp only [occursTag, Bool.or_eq_false_iff, decide_eq_false_iff_not]
        exact ⟨fun he => htag (he ▸ ht), occursTagList_sanitizeList ht cs⟩

theorem occursTagList_sanitizeList {t : String} (ht : t ∈ removeSelectors) :
    ∀ ds : List Dom, occursTagList t (sanitizeList ds) = false
  | [] => by simp [sanitizeList, occursTagList]
  | d :: ds => by
      cases hs : sanitize d with
      | none => simpa [sanitizeList, hs] using occursTagList_sanitizeList ht ds
      | some d2 =>
          simp only [sanitizeList, hs, occursTagList, Bool.or_eq_false_iff]
          exact ⟨occursTag_sanitize ht hs, occursTagList_sanitizeList ht ds⟩

end

/-- **C3.** The DOM sanitizer is driven by the fixed, non-configurable
selector list `script, style, noscript, iframe, svg, form, footer, nav,
aside`: `createCleanDom` parses the HTML and sanitizes every top-level
node with exactly that list; every element whose tag is in the list is
deleted (with its subtree, as `Element#remove` does); every element
whose tag is not in the list survives unchanged apart from the
recursive cleaning of its children, and text nodes survive unchanged —
so no other element is removed; consequently no element with a listed
tag occurs in the cleaned document. -/
theorem c3_sanitizer_exact :
    removeSelectors =
      ["script", "style", "noscript", "iframe", "svg", "form", "footer", "nav", "aside"] ∧
    (∀ env rawHtml url,
      createCleanDom env rawHtml url = sanitizeList (env.parseHtml rawHtml url)) ∧
    (∀ tag cs, tag ∈ removeSelectors → sanitize (.elem tag cs) = none) ∧
    (∀ tag cs, tag ∉ removeSelectors →
      sanitize (.elem tag cs) = some (.elem tag (sanitizeList cs))) ∧
    (∀ s, sanitize (.text s) = some (.text s)) ∧
    (∀ t, t ∈ removeSelectors →
      ∀ env rawHtml url, occursTagList t (createCleanDom env rawHtml url) = false) := by
  refine ⟨rfl, fun _ _ _ => rfl, ?_, ?_, fun s => rfl, ?_⟩
  · intro tag cs h
    simp [sanitize, h]
  · intro tag cs h
    simp [sanitize, h]
  · intro t ht env rawHtml url
    exact occursTagList_sanitizeList ht (env.parseHtml rawHtml url)

/-- Witness for C3 on a concrete document: the `script` element of
`envDemo`'s parsed DOM is gone after cleaning while the `p` element
survives. -/
theorem c3_sanitizer_exact_witness :
    sanitize (.elem "script" [.text "x"]) = none ∧
    sanitize (.elem "p" [.text "hello"]) = some (.elem "p" [.text "hello"]) ∧
    occursTagList "script" (createCleanDom envDemo "raw" "u") = false := by
  have h := c3_sanitizer_exact
  refine ⟨h.2.2.1 "script" [.text "x"] (by decide), ?_, ?_⟩
  · have h2 := h.2.2.2.1 "p" [.text "hello"] (by decide)
    simpa [sanitizeList, sanitize] using h2
  · exact h.2.2.2.2.2 "script" (by decide) envDemo "raw" "u"

theorem extractStep_ok_fields {env : Env} {url rawHtml : String} {r : ResultRecord}
    (h : extractStep env url rawHtml = .ok r) :
    ∃ a, env.readability (createCleanDom env rawHtml url) = some a ∧
      r.title = a.title ∧ r.content = jsTrim a.textContent ∧
      r.domain = env.hostname url ∧ r.url = url := by
  unfold extractStep at h
  cases ha : env.readability (createCleanDom env rawHtml url) with
  | none => rw [ha] at h; cases h
  | some a =>
      rw [ha] at h
      cases h
      exact ⟨a, rfl, rfl, rfl, rfl, rfl⟩

theorem writeArtifacts_ok {env : Env} {d : String} {arts : List (String × String)}
    {u : Unit} {evs : List Event}
    (h : writeArtifacts env d arts = (.ok u, evs)) :
    evs = arts.map (fun nc => Event.write (pathJoin d nc.1) nc.2) := by
  induction arts generalizing evs with
  | nil =>
      simp only [writeArtifacts, Prod.mk.injEq] at h
      simp [h.2.symm]
  | cons nc rest ih =>
      by_cases hw : env.writeOk (pathJoin d nc.1) = true
      · simp only [writeArtifacts, hw, if_true] at h
        rcases hrest : writeArtifacts env d rest with ⟨r2, evs2⟩
        rw [hrest] at h
        simp only [Prod.mk.injEq] at h
        obtain ⟨h1, h2⟩ := h
        subst h1
        rw [← h2]
        simp [ih hrest]
      · simp only [writeArtifacts, hw, if_false, Bool.false_eq_true, ite_false,
          Prod.mk.injEq] at h
        exact absurd h.1 (by simp)

theorem rev1_extract_ok {env : Env} {url : String} {dd : Option String}
    {r : ResultRecord} {tr : List Event}
    (h : Rev1.extract env url dd = (.ok r, tr)) :
    ∃ rawHtml, env.navigate url = .ok rawHtml ∧
      extractStep env url rawHtml = .ok r ∧
      ((dd = none ∧ tr = [.launch, .close]) ∨
       (∃ d, dd = some d ∧
         tr = [Event.launch, Event.close] ++
              (if env.dirExists d then [] else [Event.mkdir d]) ++
              [Event.write (pathJoin d "original.html") rawHtml,
               Event.write (pathJoin d "title.txt") r.title,
               Event.write (pathJoin d "content.txt") r.content])) := by
  unfold Rev1.extract Rev1.fetchHtmlWithBrowser at h
  cases hl : env.launch with
  | error m => simp only [hl] at h; simp at h
  | ok u =>
      simp only [hl] at h
      cases hn : env.navigate url with
      | error m => simp only [hn] at h; simp at h
      | ok rawHtml =>
          simp only [hn] at h
          refine ⟨rawHtml, rfl, ?_⟩
          cases hs : extractStep env url rawHtml with
          | error e => simp only [hs] at h; simp at h
          | ok result =>
              simp only [hs] at h
              cases dd with
              | none =>
                  simp only [Prod.mk.injEq, Except.ok.injEq] at h
                  obtain ⟨h1, h2⟩ := h
                  subst h1
                  exact ⟨rfl, Or.inl ⟨rfl, h2.symm⟩⟩
              | some d =>
                  dsimp only at h
                  unfold Rev1.saveDebugFiles at h
                  by_cases he : env.dirExists d = true
                  · rw [if_pos he] at h
                    rcases hw : writeArtifacts env d (artifactList rawHtml result)
                      with ⟨wr, wevs⟩
                    simp only [hw] at h
                    cases wr with
                    | error e => simp at h
                    | ok u2 =>
                        simp only [Prod.mk.injEq, Except.ok.injEq] at h
                        obtain ⟨h1, h2⟩ := h
                        subst h1
                        refine ⟨rfl, Or.inr ⟨d, rfl, ?_⟩⟩
                        rw [← h2, writeArtifacts_ok hw]
                        simp [artifactList, he]
                  · rw [if_neg he] at h
                    by_cases hm : env.mkdirOk d = true
                    · rw [if_pos hm] at h
                      rcases hw : writeArtifacts env d (artifactList rawHtml result)
                        with ⟨wr, wevs⟩
                      simp only [hw] at h
                      cases wr with
                      | error e => simp at h
                      | ok u2 =>
                          simp only [Prod.mk.injEq, Except.ok.injEq] at h
                          obtain ⟨h1, h2⟩ := h
                          subst h1
                          refine ⟨rfl, Or.inr ⟨d, rfl, ?_⟩⟩
                          rw [← h2, writeArtifacts_ok hw]
                          simp [artifactList, he]
                    · rw [if_neg hm] at h
                      simp at h

theorem part000_extract_ok {env : Env} {url : String} {dd : Option String}
    {r : ResultRecord} {tr : List Event}
    (h : Part000.extract env url dd = (.ok r, tr)) :
    ∃ rawHtml, env.navigate url = .ok rawHtml ∧
      extractStep env url rawHtml = .ok r ∧
      ((dd = none ∧ tr = [.launch, .close]) ∨
       (∃ d, dd = some d ∧
         tr = (if env.dirExists d then [] else [Event.mkdir d]) ++
              [Event.launch] ++
              [Event.write (pathJoin d "original.html") rawHtml,
               Event.write (pathJoin d "title.txt") r.title,
               Event.write (pathJoin d "content.txt") r.content] ++
              [Event.close])) := by
  unfold Part000.extract at h
  cases dd with
  | none =>
      simp only at h
      cases hl : env.launch with
      | error m => simp only [hl] at h; simp at h
      | ok u =>
          simp only [hl] at h
          cases hn : env.navigate url with
          | error m => simp only [hn] at h; simp at h
          | ok rawHtml =>
              simp only [hn] at h
              refine ⟨rawHtml, rfl, ?_⟩
              cases hs : extractStep env url rawHtml with
              | error e => simp only [hs] at h; simp at h
              | ok result =>
                  simp only [hs] at h
                  simp only [List.nil_append, Prod.mk.injEq, Except.ok.injEq] at h
                  obtain ⟨h1, h2⟩ := h
                  subst h1
                  exact ⟨rfl, Or.inl ⟨rfl, h2.symm⟩⟩
  | some d =>
      by_cases he : env.dirExists d = true
      · simp only [he, if_true] at h
        cases hl : env.launch with
        | error m => simp only [hl] at h; simp at h
        | ok u =>
            simp only [hl] at h
            cases hn : env.navigate url with
            | error m => simp only [hn] at h; simp at h
            | ok rawHtml =>
                simp only [hn] at h
                refine ⟨rawHtml, rfl, ?_⟩
                cases hs : extractStep env url rawHtml with
                | error e => simp only [hs] at h; simp at h
                | ok result =>
                    simp only [hs] at h
                    rcases hw : writeArtifacts env d (artifactList rawHtml result)
                      with ⟨wr, wevs⟩
                    simp only [hw] at h
                    cases wr with
                    | error e => simp at h
                    | ok u2 =>
                        simp only [Prod.mk.injEq, Except.ok.injEq] at h
                        obtain ⟨h1, h2⟩ := h
                        subst h1
                        refine ⟨rfl, Or.inr ⟨d, rfl, ?_⟩⟩
                        rw [← h2, writeArtifacts_ok hw]
                        simp [artifactList, he]
      · by_cases hm : env.mkdirOk d = true
        · simp only [he, hm, if_true, if_false, Bool.false_eq_true, ite_false] at h
          cases hl : env.launch with
          | error m => simp only [hl] at h; simp at h
          | ok u =>
              simp only [hl] at h
              cases hn : env.navigate url with
              | error m => simp only [hn] at h; simp at h
              | ok rawHtml =>
                  simp only [hn] at h
                  refine ⟨rawHtml, rfl, ?_⟩
                  cases hs : extractStep env url rawHtml with
                  | error e => simp only [hs] at h; simp at h
                  | ok result =>
                      simp only [hs] at h
                      rcases hw : writeArtifacts env d (artifactList rawHtml result)
                        with ⟨wr, wevs⟩
                      simp only [hw] at h
                      cases wr with
                      | error e => simp at h
                      | ok u2 =>
                          simp only [Prod.mk.injEq, Except.ok.injEq] at h
                          obtain ⟨h1, h2⟩ := h
                          subst h1
                          refine ⟨rfl, Or.inr ⟨d, rfl, ?_⟩⟩
                          rw [← h2, writeArtifacts_ok hw]
                          simp [artifactList, he]
        · simp only [he, hm, if_false, Bool.false_eq_true, ite_false] at h
          simp at h

theorem head_dropWhile_false (p : Char → Bool) :
    ∀ (l : List Char) (c : Char), (l.dropWhile p).head? = some c → p c = false := by
  intro l
  induction l with
  | nil => intro c h; simp [List.dropWhile] at h
  | cons a l ih =>
      intro c h
      by_cases hp : p a = true
      · rw [List.dropWhile_cons, if_pos hp] at h
        exact ih c h
      · rw [List.dropWhile_cons, if_neg hp] at h
        simp only [List.head?_cons, Option.some.injEq] at h
        subst h
        simpa using hp

theorem getLast?_dropWhile_of_ne (p : Char → Bool) :
    ∀ l : List Char, l.dropWhile p ≠ [] → (l.dropWhile p).getLast? = l.getLast? := by
  intro l
  induction l with
  | nil => intro h; simp [List.dropWhile] at h
  | cons a l ih =>
      intro h
      by_cases hp : p a = true
      · rw [List.dropWhile_cons, if_pos hp] at h ⊢
        rw [ih h]
        have hl : l ≠ [] := by
          intro he
          rw [he] at h
          simp [List.dropWhile] at h
        cases l with
        | nil => exact absurd rfl hl
        | cons b t => rw [List.getLast?_cons_cons]
      · rw [List.dropWhile_cons, if_neg hp]

theorem jsTrim_head (s : String) (c : Char) (hc : (jsTrim s).data.head? = some c) :
    jsWhitespace c = false := by
  have hd : (jsTrim s).data = jsTrimList s.data := rfl
  rw [hd] at hc
  unfold jsTrimList at hc
  rw [List.head?_reverse] at hc
  have hne : (s.data.dropWhile jsWhitespace).reverse.dropWhile jsWhitespace ≠ [] := by
    intro he
    rw [he] at hc
    simp at hc
  rw [getLast?_dropWhile_of_ne _ _ hne, List.getLast?_reverse] at hc
  exact head_dropWhile_false _ _ _ hc

theorem jsTrim_getLast (s : String) (c : Char) (hc : (jsTrim s).data.getLast? = some c) :
    jsWhitespace c = false := by
  have hd : (jsTrim s).data = jsTrimList s.data := rfl
  rw [hd] at hc
  unfold jsTrimList at hc
  rw [List.getLast?_reverse] at hc
  exact head_dropWhile_false _ _ _ hc

theorem pathJoin_inj_name {d a b : String} (h : pathJoin d a = pathJoin d b) : a = b := by
  have hd : (pathJoin d a).data = (pathJoin d b).data := by rw [h]
  unfold pathJoin at hd
  simp only [String.data_append, List.append_assoc] at hd
  have h1 := List.append_cancel_left hd
  have h2 := List.append_cancel_left h1
  cases a
  cases b
  exact congrArg String.mk h2

/-- **C2.** Whenever either revision's `extract` succeeds, the record
it returns consists exactly of the four fields `title`, `content`,
`domain`, `url` (this is the `ResultRecord` type itself), its `url`
field is the input URL unchanged, and its `domain` field is the
hostname that `new URL(url).hostname` derives from that input URL. -/
theorem c2_result_record :
    ∀ (env : Env) (url : String) (dd : Option String) (r : ResultRecord) (tr : List Event),
      (Rev1.extract env url dd = (.ok r, tr) ∨ Part000.extract env url dd = (.ok r, tr)) →
      r = { title := r.title, content := r.content, domain := r.domain, url := r.url } ∧
      r.url = url ∧ r.domain = env.hostname url := by
  intro env url dd r tr h
  have key : ∃ rawHtml, env.navigate url = .ok rawHtml ∧ extractStep env url rawHtml = .ok r := by
    rcases h with h | h
    · obtain ⟨raw, h1, h2, _⟩ := rev1_extract_ok h
      exact ⟨raw, h1, h2⟩
    · obtain ⟨raw, h1, h2, _⟩ := part000_extract_ok h
      exact ⟨raw, h1, h2⟩
  obtain ⟨raw, _, h2⟩ := key
  obtain ⟨a, _, _, _, hdom, hurl⟩ := extractStep_ok_fields h2
  exact ⟨rfl, hurl, hdom⟩

/-- Witness for C2: on the concrete demo run the returned record's
`url` is the input URL and its `domain` is the oracle hostname. -/
theorem c2_result_record_witness :
    ({ title := "T", content := "hello", domain := "example.com", url := "u" } :
      ResultRecord).url = "u" ∧
    ({ title := "T", content := "hello", domain := "example.com", url := "u" } :
      ResultRecord).domain = envDemo.hostname "u" := by
  have h := c2_result_record envDemo "u" none
    { title := "T", content := "hello", domain := "example.com", url := "u" }
    [.launch, .close] (Or.inl (by rfl))
  exact ⟨h.2.1, h.2.2⟩

/-- **C9.** On every successful run of either revision the `content`
field is the extracted text passed through `trim()`, so it neither
begins nor ends with a whitespace character; and when a debug directory
was given, the `content.txt` file is written with exactly that trimmed
string. -/
theorem c9_content_trimmed :
    ∀ (env : Env) (url : String) (dd : Option String) (r : ResultRecord) (tr : List Event),
      (Rev1.extract env url dd = (.ok r, tr) ∨ Part000.extract env url dd = (.ok r, tr)) →
      (∀ c, r.content.data.head? = some c → jsWhitespace c = false) ∧
      (∀ c, r.content.data.getLast? = some c → jsWhitespace c = false) ∧
      (∀ d, dd = some d → Event.write (pathJoin d "content.txt") r.content ∈ tr) := by
  intro env url dd r tr h
  have key : (∃ rawHtml, env.navigate url = .ok rawHtml ∧ extractStep env url rawHtml = .ok r) ∧
      (∀ d, dd = some d → Event.write (pathJoin d "content.txt") r.content ∈ tr) := by
    rcases h with h | h
    · obtain ⟨raw, h1, h2, h3⟩ := rev1_extract_ok h
      refine ⟨⟨raw, h1, h2⟩, ?_⟩
      intro d hdd
      rcases h3 with ⟨hnone, _⟩ | ⟨d2, hd2, htr⟩
      · rw [hdd] at hnone; cases hnone
      · rw [hdd] at hd2
        cases hd2
        rw [htr]
        simp
    · obtain ⟨raw, h1, h2, h3⟩ := part000_extract_ok h
      refine ⟨⟨raw, h1, h2⟩, ?_⟩
      intro d hdd
      rcases h3 with ⟨hnone, _⟩ | ⟨d2, hd2, htr⟩
      · rw [hdd] at hnone; cases hnone
      · rw [hdd] at hd2
        cases hd2
        rw [htr]
        simp
  obtain ⟨⟨raw, _, h2⟩, hwrite⟩ := key
  obtain ⟨a, _, _, hcontent, _, _⟩ := extractStep_ok_fields h2
  refine ⟨?_, ?_, hwrite⟩
  · intro c hc
    rw [hcontent] at hc
    exact jsTrim_head _ _ hc
  · intro c hc
    rw [hcontent] at hc
    exact jsTrim_getLast _ _ hc

/-- Witness for C9: the demo run's content is `"hello"` (trimmed from
`" hello "`), which starts and ends with non-whitespace, and the
debug-directory run writes `content.txt` with exactly that string. -/
theorem c9_content_trimmed_witness :
    jsWhitespace 'h' = false ∧ jsWhitespace 'o' = false ∧
    Event.write (pathJoin "dbg" "content.txt") "hello" ∈
      (Rev1.extract envDemo "u" (some "dbg")).2 := by
  have h := c9_content_trimmed envDemo "u" (some "dbg")
    { title := "T", content := "hello", domain := "example.com", url := "u" }
    (Rev1.extract envDemo "u" (some "dbg")).2 (Or.inl (by rfl))
  exact ⟨h.1 'h' (by rfl), h.2.1 'o' (by rfl), h.2.2 "dbg" rfl⟩

/-- Counterexample to C7 as stated: the claim requires the three debug
files to be non-empty, but when Readability returns an article with an
empty title and whitespace-only text, the run still succeeds and writes
`title.txt` and `content.txt` with empty contents. -/
theorem c7_counterexample :
    (Rev1.extract envEmptyArticle "u" (some "dbg")).1.isOk = true ∧
    Event.write (pathJoin "dbg" "title.txt") "" ∈
      (Rev1.extract envEmptyArticle "u" (some "dbg")).2 ∧
    Event.write (pathJoin "dbg" "content.txt") "" ∈
      (Rev1.extract envEmptyArticle "u" (some "dbg")).2 := by
  refine ⟨rfl, ?_, ?_⟩ <;> decide

/-- **C7 (amended).** On a successful run with a debug directory, the
tool creates the directory exactly when it is absent and writes exactly
the three files `original.html` (the fetched raw HTML), `title.txt`
(the JSON output's title) and `content.txt` (the JSON output's
content) into it, in that order, overwriting any prior contents at
those paths; the files' contents match the corresponding values but may
be empty when those values are empty. -/
theorem c7_debug_artifacts :
    ∀ (env : Env) (url d rawHtml : String) (r : ResultRecord) (tr : List Event),
      env.navigate url = .ok rawHtml →
      (Rev1.extract env url (some d) = (.ok r, tr) ∨
       Part000.extract env url (some d) = (.ok r, tr)) →
      writesOf tr = [(pathJoin d "original.html", rawHtml),
                     (pathJoin d "title.txt", r.title),
                     (pathJoin d "content.txt", r.content)] ∧
      ((Event.mkdir d ∈ tr) ↔ env.dirExists d = false) ∧
      (∀ fs0 : String → Option String,
        applyEvents fs0 tr (pathJoin d "original.html") = some rawHtml ∧
        applyEvents fs0 tr (pathJoin d "title.txt") = some r.title ∧
        applyEvents fs0 tr (pathJoin d "content.txt") = some r.content) := by
  intro env url d rawHtml r tr hnav h
  have hot : pathJoin d "original.html" ≠ pathJoin d "title.txt" :=
    fun hh => absurd (pathJoin_inj_name hh) (by decide)
  have hoc : pathJoin d "original.html" ≠ pathJoin d "content.txt" :=
    fun hh => absurd (pathJoin_inj_name hh) (by decide)
  have htc : pathJoin d "title.txt" ≠ pathJoin d "content.txt" :=
    fun hh => absurd (pathJoin_inj_name hh) (by decide)
  rcases h with h | h
  · obtain ⟨raw2, hnav2, _, h3⟩ := rev1_extract_ok h
    rw [hnav] at hnav2
    cases hnav2
    rcases h3 with ⟨hnone, _⟩ | ⟨d2, hd2, htr⟩
    · cases hnone
    · cases hd2
      subst htr
      by_cases he : env.dirExists d = true
      · refine ⟨by simp [he, writesOf, writesOf_append], by simp [he], ?_⟩
        intro fs0
        refine ⟨?_, ?_, ?_⟩ <;>
          simp [he, applyEvents, hot, hoc, htc, Ne.symm hot, Ne.symm hoc, Ne.symm htc]
      · refine ⟨by simp [he, writesOf, writesOf_append], by simp [he], ?_⟩
        intro fs0
        refine ⟨?_, ?_, ?_⟩ <;>
          simp [he, applyEvents, hot, hoc, htc, Ne.symm hot, Ne.symm hoc, Ne.symm htc]
  · obtain ⟨raw2, hnav2, _, h3⟩ := part000_extract_ok h
    rw [hnav] at hnav2
    cases hnav2
    rcases h3 with ⟨hnone, _⟩ | ⟨d2, hd2, htr⟩
    · cases hnone
    · cases hd2
      subst htr
      by_cases he : env.dirExists d = true
      · refine ⟨by simp [he, writesOf, writesOf_append], by simp [he], ?_⟩
        intro fs0
        refine ⟨?_, ?_, ?_⟩ <;>
          simp [he, applyEvents, hot, hoc, htc, Ne.symm hot, Ne.symm hoc, Ne.symm htc]
      · refine ⟨by simp [he, writesOf, writesOf_append], by simp [he], ?_⟩
        intro fs0
        refine ⟨?_, ?_, ?_⟩ <;>
          simp [he, applyEvents, hot, hoc, htc, Ne.symm hot, Ne.symm hoc, Ne.symm htc]

/-- Witness for the amended C7 on the demo run of both revisions: the
debug directory is absent so it is created, and the three files are
written with the raw HTML, the title and the trimmed content; replaying
the events over an arbitrary pre-existing filesystem state shows the
overwrite. -/
theorem c7_debug_artifacts_witness :
    writesOf (Rev1.extract envDemo "u" (some "dbg")).2 =
      [(pathJoin "dbg" "original.html",
          "<html><body><p>hello</p><script>x</script></body></html>"),
       (pathJoin "dbg" "title.txt", "T"),
       (pathJoin "dbg" "content.txt", "hello")] ∧
    (Event.mkdir "dbg" ∈ (Rev1.extract envDemo "u" (some "dbg")).2 ↔
      envDemo.dirExists "dbg" = false) ∧
    applyEvents (fun _ => some "stale") (Rev1.extract envDemo "u" (some "dbg")).2
        (pathJoin "dbg" "content.txt") = some "hello" ∧
    writesOf (Part000.extract envDemo "u" (some "dbg")).2 =
      [(pathJoin "dbg" "original.html",
          "<html><body><p>hello</p><script>x</script></body></html>"),
       (pathJoin "dbg" "title.txt", "T"),
       (pathJoin "dbg" "content.txt", "hello")] ∧
    (Event.mkdir "dbg" ∈ (Part000.extract envDemo "u" (some "dbg")).2 ↔
      envDemo.dirExists "dbg" = false) ∧
    applyEvents (fun _ => some "stale") (Part000.extract envDemo "u" (some "dbg")).2
        (pathJoin "dbg" "title.txt") = some "T" := by
  have h1 := c7_debug_artifacts envDemo "u" "dbg"
    "<html><body><p>hello</p><script>x</script></body></html>"
    { title := "T", content := "hello", domain := "example.com", url := "u" }
    (Rev1.extract envDemo "u" (some "dbg")).2 (by rfl) (Or.inl (by rfl))
  have h2 := c7_debug_artifacts envDemo "u" "dbg"
    "<html><body><p>hello</p><script>x</script></body></html>"
    { title := "T", content := "hello", domain := "example.com", url := "u" }
    (Part000.extract envDemo "u" (some "dbg")).2 (by rfl) (Or.inr (by rfl))
  exact ⟨h1.1, h1.2.1, (h1.2.2 (fun _ => some "stale")).2.2,
    h2.1, h2.2.1, (h2.2.2 (fun _ => some "stale")).2.1⟩

/-- **C8.** On every run of either revision in which the browser is
launched, the browser is closed before the run ends, on every exit
path: navigation failure, extraction failure, debug-write failure and
success alike (a failed launch launches no browser). -/
theorem c8_browser_always_closed :
    ∀ (env : Env) (url : String) (dd : Option String),
      (Event.launch ∈ (Rev1.extract env url dd).2 →
        Event.close ∈ (Rev1.extract env url dd).2) ∧
      (Event.launch ∈ (Part000.extract env url dd).2 →
        Event.close ∈ (Part000.extract env url dd).2) := by
  intro env url dd
  unfold Rev1.extract Part000.extract Rev1.fetchHtmlWithBrowser Rev1.saveDebugFiles
  cases dd with
  | none =>
      cases hl : env.launch with
      | error m => simp
      | ok u =>
          cases hn : env.navigate url with
          | error m => simp [hn]
          | ok raw =>
              cases hs : extractStep env url raw with
              | error e => simp [hn, hs]
              | ok res => simp [hn, hs]
  | some d =>
      by_cases he : env.dirExists d = true
      · cases hl : env.launch with
        | error m => simp [he]
        | ok u =>
            cases hn : env.navigate url with
            | error m => simp [he, hn]
            | ok raw =>
                cases hs : extractStep env url raw with
                | error e => simp [he, hn, hs]
                | ok res =>
                    rcases hw : writeArtifacts env d (artifactList raw res) with ⟨wr, wevs⟩
                    cases wr with
                    | ok u2 => simp [he, hn, hs, hw]
                    | error e => simp [he, hn, hs, hw]
      · by_cases hm : env.mkdirOk d = true
        · cases hl : env.launch with
          | error m => simp [he, hm]
          | ok u =>
              cases hn : env.navigate url with
              | error m => simp [he, hm, hn]
              | ok raw =>
                  cases hs : extractStep env url raw with
                  | error e => simp [he, hm, hn, hs]
                  | ok res =>
                      rcases hw : writeArtifacts env d (artifactList raw res) with ⟨wr, wevs⟩
                      cases wr with
                      | ok u2 => simp [he, hm, hn, hs, hw]
                      | error e => simp [he, hm, hn, hs, hw]
        · cases hl : env.launch with
          | error m => simp [he, hm]
          | ok u =>
              cases hn : env.navigate url with
              | error m => simp [he, hm, hn]
              | ok raw =>
                  cases hs : extractStep env url raw with
                  | error e => simp [he, hm, hn, hs]
                  | ok res => simp [he, hm, hn, hs]

/-- Witness for C8 on a failing concrete run: in `envFail` the browser
is launched, extraction fails with no article, and the trace still
contains the close event. -/
theorem c8_browser_always_closed_witness :
    Event.launch ∈ (Rev1.extract envFail "u" none).2 ∧
    Event.close ∈ (Rev1.extract envFail "u" none).2 := by
  have h := (c8_browser_always_closed envFail "u" none).1
  have hm : Event.launch ∈ (Rev1.extract envFail "u" none).2 := by decide
  exact ⟨hm, h hm⟩

/-- **C1.** The two revisions are observably equivalent in the sense of
the claim: for every environment, URL and optional debug directory they
succeed or fail together, return the same result record when they
succeed, and perform exactly the same debug-file writes with the same
contents.  (Incidental differences — the moment the debug directory is
created, which error wins when several steps would fail — are outside
the claim's observables.) -/
theorem c1_revisions_equivalent :
    ∀ (env : Env) (url : String) (dd : Option String),
      ((Rev1.extract env url dd).1.toOption = (Part000.extract env url dd).1.toOption) ∧
      ((Rev1.extract env url dd).1.isOk = (Part000.extract env url dd).1.isOk) ∧
      (writesOf (Rev1.extract env url dd).2 = writesOf (Part000.extract env url dd).2) := by
  intro env url dd
  unfold Rev1.extract Part000.extract Rev1.fetchHtmlWithBrowser Rev1.saveDebugFiles
  cases dd with
  | none =>
      cases hl : env.launch with
      | error m => simp [writesOf, Except.toOption, Except.isOk, Except.toBool]
      | ok u =>
          cases hn : env.navigate url with
          | error m => simp [hn, writesOf, Except.toOption, Except.isOk, Except.toBool]
          | ok raw =>
              cases hs : extractStep env url raw with
              | error e => simp [hn, hs, writesOf, Except.toOption, Except.isOk, Except.toBool]
              | ok res => simp [hn, hs, writesOf, Except.toOption, Except.isOk, Except.toBool]
  | some d =>
      by_cases he : env.dirExists d = true
      · cases hl : env.launch with
        | error m => simp [he, writesOf, Except.toOption, Except.isOk, Except.toBool]
        | ok u =>
            cases hn : env.navigate url with
            | error m => simp [he, hn, writesOf, Except.toOption, Except.isOk, Except.toBool]
            | ok raw =>
                cases hs : extractStep env url raw with
                | error e =>
                    simp [he, hn, hs, writesOf, Except.toOption, Except.isOk, Except.toBool]
                | ok res =>
                    rcases hw : writeArtifacts env d (artifactList raw res) with ⟨wr, wevs⟩
                    cases wr with
                    | ok u2 =>
                        simp [he, hn, hs, hw, writesOf, writesOf_append,
                          Except.toOption, Except.isOk, Except.toBool]
                    | error e =>
                        simp [he, hn, hs, hw, writesOf, writesOf_append,
                          Except.toOption, Except.isOk, Except.toBool]
      · by_cases hm : env.mkdirOk d = true
        · cases hl : env.launch with
          | error m => simp [he, hm, writesOf, Except.toOption, Except.isOk, Except.toBool]
          | ok u =>
              cases hn : env.navigate url with
              | error m =>
                  simp [he, hm, hn, writesOf, Except.toOption, Except.isOk, Except.toBool]
              | ok raw =>
                  cases hs : extractStep env url raw with
                  | error e =>
                      simp [he, hm, hn, hs, writesOf, Except.toOption, Except.isOk,
                        Except.toBool]
                  | ok res =>
                      rcases hw : writeArtifacts env d (artifactList raw res) with ⟨wr, wevs⟩
                      cases wr with
                      | ok u2 =>
                          simp [he, hm, hn, hs, hw, writesOf, writesOf_append,
                            Except.toOption, Except.isOk, Except.toBool]
                      | error e =>
                          simp [he, hm, hn, hs, hw, writesOf, writesOf_append,
                            Except.toOption, Except.isOk, Except.toBool]
        · cases hl : env.launch with
          | error m => simp [he, hm, writesOf, Except.toOption, Except.isOk, Except.toBool]
          | ok u =>
              cases hn : env.navigate url with
              | error m =>
                  simp [he, hm, hn, writesOf, Except.toOption, Except.isOk, Except.toBool]
              | ok raw =>
                  cases hs : extractStep env url raw with
                  | error e =>
                      simp [he, hm, hn, hs, writesOf, Except.toOption, Except.isOk,
                        Except.toBool]
                  | ok res =>
                      simp [he, hm, hn, hs, writesOf, Except.toOption, Except.isOk,
                        Except.toBool]

/-- Witness for C1: both revisions run on the concrete demo environment
with a debug directory produce the same record and the same three
debug-file writes. -/
theorem c1_revisions_equivalent_witness :
    (Rev1.extract envDemo "u" (some "dbg")).1.toOption =
      (Part000.extract envDemo "u" (some "dbg")).1.toOption ∧
    writesOf (Rev1.extract envDemo "u" (some "dbg")).2 =
      writesOf (Part000.extract envDemo "u" (some "dbg")).2 := by
  have h := c1_revisions_equivalent envDemo "u" (some "dbg")
  exact ⟨h.1, h.2.2⟩

/-- **C6.** For every invocation: when the arguments yield no truthy
target URL (no non-flag argument, or an empty-string one — both falsy
in the JS `if (!targetUrl)` test) the process exits 1 with no JSON;
when a target URL is selected and the pipeline succeeds the process
exits 0 and prints the result record as JSON on standard output; when
the pipeline fails — for any error (navigation/timeout, no extractable
article, filesystem error while writing debug artifacts) — it exits 1,
prints the error on standard error, and prints no JSON on standard
output; exit 0 happens exactly when the pipeline succeeded.  Both
revisions' entry points satisfy this. -/
theorem c6_cli_contract :
    ∀ (env : Env) (argv : List String),
      (∀ dd, parseArgs argv = (none, dd) →
        (mainRev1 env argv).exitCode = 1 ∧ (mainRev1 env argv).stdoutJson = none ∧
        (mainPart env argv).exitCode = 1 ∧ (mainPart env argv).stdoutJson = none) ∧
      (∀ dd, parseArgs argv = (some "", dd) →
        (mainRev1 env argv).exitCode = 1 ∧ (mainRev1 env argv).stdoutJson = none ∧
        (mainPart env argv).exitCode = 1 ∧ (mainPart env argv).stdoutJson = none) ∧
      (∀ url dd, parseArgs argv = (some url, dd) → url ≠ "" →
        (∀ r tr, Rev1.extract env url dd = (.ok r, tr) →
          (mainRev1 env argv).exitCode = 0 ∧ (mainRev1 env argv).stdoutJson = some r ∧
          (mainRev1 env argv).stderrErr = none) ∧
        (∀ e tr, Rev1.extract env url dd = (.error e, tr) →
          (mainRev1 env argv).exitCode = 1 ∧ (mainRev1 env argv).stdoutJson = none ∧
          (mainRev1 env argv).stderrErr = some e) ∧
        ((mainRev1 env argv).exitCode = 0 ↔ (Rev1.extract env url dd).1.isOk = true) ∧
        (∀ r tr, Part000.extract env url dd = (.ok r, tr) →
          (mainPart env argv).exitCode = 0 ∧ (mainPart env argv).stdoutJson = some r ∧
          (mainPart env argv).stderrErr = none) ∧
        (∀ e tr, Part000.extract env url dd = (.error e, tr) →
          (mainPart env argv).exitCode = 1 ∧ (mainPart env argv).stdoutJson = none ∧
          (mainPart env argv).stderrErr = some e) ∧
        ((mainPart env argv).exitCode = 0 ↔ (Part000.extract env url dd).1.isOk = true)) := by
  intro env argv
  refine ⟨?_, ?_, ?_⟩
  · intro dd hp
    unfold mainRev1 mainPart
    rw [hp]
    exact ⟨rfl, rfl, rfl, rfl⟩
  · intro dd hp
    unfold mainRev1 mainPart
    rw [hp]
    dsimp only
    rw [if_pos rfl]
    exact ⟨rfl, rfl, rfl, rfl⟩
  · intro url dd hp hne
    unfold mainRev1 mainPart
    rw [hp]
    dsimp only
    simp only [if_neg hne]
    refine ⟨?_, ?_, ?_, ?_, ?_, ?_⟩
    · intro r tr h
      rw [h]
      exact ⟨rfl, rfl, rfl⟩
    · intro e tr h
      rw [h]
      exact ⟨rfl, rfl, rfl⟩
    · rcases hx : Rev1.extract env url dd with ⟨res, tr0⟩
      cases res <;> simp [hx, Except.isOk, Except.toBool]
    · intro r tr h
      rw [h]
      exact ⟨rfl, rfl, rfl⟩
    · intro e tr h
      rw [h]
      exact ⟨rfl, rfl, rfl⟩
    · rcases hx : Part000.extract env url dd with ⟨res, tr0⟩
      cases res <;> simp [hx, Except.isOk, Except.toBool]

/-- Witness for C6: a successful concrete invocation exits 0 with the
JSON record; a failing one (no article) exits 1 with no JSON and the
error on standard error; an invocation with no argument, and one whose
only argument is the empty string (falsy target URL), both exit 1 with
no JSON. -/
theorem c6_cli_contract_witness :
    (mainRev1 envDemo ["u"]).exitCode = 0 ∧
    (mainRev1 envDemo ["u"]).stdoutJson =
      some { title := "T", content := "hello", domain := "example.com", url := "u" } ∧
    (mainRev1 envFail ["u"]).exitCode = 1 ∧
    (mainRev1 envFail ["u"]).stdoutJson = none ∧
    (mainRev1 envFail ["u"]).stderrErr = some .noArticle ∧
    (mainRev1 envDemo []).exitCode = 1 ∧
    (mainRev1 envDemo []).stdoutJson = none ∧
    (mainRev1 envDemo [""]).exitCode = 1 ∧
    (mainRev1 envDemo [""]).stdoutJson = none ∧
    (mainPart envDemo [""]).exitCode = 1 ∧
    (mainPart envDemo [""]).stdoutJson = none := by
  have hOk := ((c6_cli_contract envDemo ["u"]).2.2 "u" none (by rfl) (by decide)).1
    { title := "T", content := "hello", domain := "example.com", url := "u" }
    [.launch, .close] (by rfl)
  have hErr := (((c6_cli_contract envFail ["u"]).2.2 "u" none (by rfl) (by decide)).2.1
    .noArticle [.launch, .close] (by rfl))
  have hNoArg := (c6_cli_contract envDemo []).1 none (by rfl)
  have hEmpty := (c6_cli_contract envDemo [""]).2.1 none (by rfl)
  exact ⟨hOk.1, hOk.2.1, hErr.1, hErr.2.1, hErr.2.2, hNoArg.1, hNoArg.2.1,
    hEmpty.1, hEmpty.2.1, hEmpty.2.2.1, hEmpty.2.2.2⟩

/-- Counterexample to C10 as stated: with arguments
`["--debug-dir", ""]` the empty string is the only non-flag argument
and follows the flag, so the claim predicts it becomes both the target
URL and the debug directory; the code does select it as target URL but
— because the empty string is falsy in the `args[debugIndex + 1]`
truthiness test — leaves the debug directory null. -/
theorem c10_counterexample :
    parseArgs ["--debug-dir", ""] = (some "", none) ∧
    parseArgs ["--debug-dir", ""] ≠ (some "", some "") := by
  exact ⟨by decide, by decide⟩

/-- **C10 (amended).** The argument parser selects as target URL the
first argument not starting with `-`, independently of debug-flag
consumption: when the only non-flag argument is the *non-empty* value
following `--debug-dir` or `-d`, that same string becomes both the
target URL and the debug directory (an empty value is falsy and leaves
the debug directory null); and when the first `--debug-dir`/`-d`
occurrence has no argument after it, the debug directory is null and
the run proceeds without writing any debug file. -/
theorem c10_parse_args :
    (∀ args : List String, (parseArgs args).1 = args.find? (fun a => ! jsStartsWith a "-")) ∧
    (∀ v : String, v ≠ "" → jsStartsWith v "-" = false →
      parseArgs ["--debug-dir", v] = (some v, some v) ∧
      parseArgs ["-d", v] = (some v, some v)) ∧
    (∀ (args : List String) (i : Nat),
      args.findIdx? (fun a => a = "--debug-dir" || a = "-d") = some i →
      args.get? (i + 1) = none → (parseArgs args).2 = none) ∧
    (∀ (env : Env) (url : String),
      writesOf (Rev1.extract env url none).2 = [] ∧
      writesOf (Part000.extract env url none).2 = []) := by
  refine ⟨fun args => rfl, ?_, ?_, ?_⟩
  · intro v hv hs
    have hdd : jsStartsWith "--debug-dir" "-" = true := by decide
    have hdash : jsStartsWith "-d" "-" = true := by decide
    constructor <;>
      simp [parseArgs, List.find?, List.findIdx?_cons, hs, hv, hdd, hdash]
  · intro args i h1 h2
    simp only [parseArgs, h1, h2]
  · intro env url
    unfold Rev1.extract Part000.extract Rev1.fetchHtmlWithBrowser
    constructor <;> {
      cases hl : env.launch with
      | error m => simp [writesOf]
      | ok u =>
          cases hn : env.navigate url with
          | error m => simp [hn, writesOf]
          | ok raw =>
              cases hs : extractStep env url raw with
              | error e => simp [hn, hs, writesOf]
              | ok res => simp [hn, hs, writesOf]
    }

/-- Witness for the amended C10: a non-empty flag value doubles as the
target URL and the debug directory, and a trailing flag with no value
leaves the debug directory null. -/
theorem c10_parse_args_witness :
    parseArgs ["--debug-dir", "out"] = (some "out", some "out") ∧
    (parseArgs ["http://x/", "--debug-dir"]).2 = none := by
  have h := c10_parse_args
  refine ⟨(h.2.1 "out" (by decide) (by decide)).1, ?_⟩
  exact h.2.2.1 ["http://x/", "--debug-dir"] 1 (by decide) (by decide)

/-- **C4.** The request handler aborts a request exactly when its
resource type is in the fixed list `image, stylesheet, font, media,
imageset, object, beacon, csp_report`, continues every other request,
and the decision for the i-th request of a sequence is a function of
that request's resource type alone. -/
theorem c4_request_policy :
    blockResources =
      ["image", "stylesheet", "font", "media", "imageset", "object", "beacon", "csp_report"] ∧
    (∀ rt : String, handleRequest rt = .abort ↔ rt ∈ blockResources) ∧
    (∀ rt : String, handleRequest rt = .cont ↔ rt ∉ blockResources) ∧
    (∀ (rts : List String) (i : Nat),
      (handleRequests rts).get? i = (rts.get? i).map handleRequest) := by
  refine ⟨rfl, ?_, ?_, ?_⟩
  · intro rt
    unfold handleRequest
    split <;> simp_all
  · intro rt
    unfold handleRequest
    split <;> simp_all
  · intro rts i
    simp [handleRequests]

/-- Witness for C4: an image request is aborted, a document request is
continued, and the pointwise description holds on a concrete list. -/
theorem c4_request_policy_witness :
    handleRequest "image" = .abort ∧ handleRequest "document" = .cont ∧
    (handleRequests ["document", "image"]).get? 1 =
      (["document", "image"].get? 1).map handleRequest := by
  have h := c4_request_policy
  exact ⟨(h.2.1 "image").mpr (by decide), (h.2.2.1 "document").mpr (by decide),
    h.2.2.2 ["document", "image"] 1⟩

/-- **C5.** The Readability step fails (throws
`'Failed to parse article content.'`) exactly when `reader.parse()`
returns no article on the cleaned DOM; when it returns an article, the
step succeeds with a record carrying the article's title and its
trimmed text content. -/
theorem c5_extract_step :
    ∀ env url rawHtml,
      ((extractStep env url rawHtml).isOk = false ↔
        env.readability (createCleanDom env rawHtml url) = none) ∧
      ((extractStep env url rawHtml).isOk = false →
        extractStep env url rawHtml = .error .noArticle) ∧
      (∀ a, env.readability (createCleanDom env rawHtml url) = some a →
        extractStep env url rawHtml =
          .ok { title := a.title, content := jsTrim a.textContent,
                domain := env.hostname url, url := url }) := by
  intro env url rawHtml
  unfold extractStep
  cases h : env.readability (createCleanDom env rawHtml url) with
  | none => simp [Except.isOk, Except.toBool]
  | some a => simp [Except.isOk, Except.toBool]

/-- Witness for C5: in `envDemo` the cleaned demo document has no
`script` left, so parsing succeeds and the step returns the article's
title and trimmed text; in `envFail` parsing yields no article and the
step throws. -/
theorem c5_extract_step_witness :
    extractStep envDemo "u" "raw" =
      .ok { title := "T", content := "hello", domain := "example.com", url := "u" } ∧
    extractStep envFail "u" "raw" = .error .noArticle := by
  have h1 := (c5_extract_step envDemo "u" "raw").2.2
      { title := "T", textContent := " hello " } (by decide)
  have h2 := (c5_extract_step envFail "u" "raw").2.1
  constructor
  · have : jsTrim " hello " = "hello" := by decide
    rw [h1, this]
    simp [envDemo]
  · exact h2 (by decide)

end ExtractReadability
